import Mathlib

/-!
# Verification of the top-dropblock training engines

Shallow embedding of the two training engines of the repository
`dddd247/top-dropblock`:

* `torchreid/engine/image/cluster_dependency_triplet_dropbatch_dropbotfeatures.py`
  (`ImageClusterDependencyTripletDropBatchDropBotFeaturesEngine.train`),
  embedded here with the `CD` prefix;
* `torchreid/engine/image/triplet_npairs_softmax_fgnet.py`
  (`ImageTripletNpairsSoftmaxFGnetEngine.train`), embedded with the `FG` prefix.

Each `train(epoch, max_epoch, trainloader, fixbase_epoch, open_layers,
print_freq)` call is modelled as a pure function from the scalar observations
the engine makes of its collaborators (per-batch loss values returned by the
loss criteria, `pids.size(0)`, the accuracy metric, timing values, the
optimizer's learning rate, and for the fgnet engine the first dimension of each
part-weights tensor) to the final meter state together with a trace of the
externally visible events the loop performs: the open-layers decision, per
batch `optimizer.zero_grad()` / model forward / `loss.backward()` /
`optimizer.step()`, the periodic console print, the writer logging, and the
final scheduler step.  A second, `Except`-threaded variant models collaborators
that raise.
-/

namespace TopDropBlock

/-- Modelled from the spec: `AverageMeter` from `torchreid.utils` (not under
`src/`), the "running scalar averages (loss values, accuracy, timing)" of the
spec's data-model section: it stores the last value, a running weighted sum,
the total count, and their quotient as the average. -/
structure AverageMeter where
  val : ℚ
  avg : ℚ
  sum : ℚ
  count : ℚ
deriving DecidableEq

/-- A freshly constructed meter: all fields zero. -/
def AverageMeter.init : AverageMeter := ⟨0, 0, 0, 0⟩

/-- `update(val, n)`: record the value, add `val * n` to the sum, `n` to the
count, and recompute the average as `sum / count`. -/
def AverageMeter.update (m : AverageMeter) (v : ℚ) (n : ℕ) : AverageMeter :=
  { val := v
    sum := m.sum + v * n
    count := m.count + n
    avg := (m.sum + v * n) / (m.count + n) }

/-- Apply a list of `(value, n)` updates in order. -/
def AverageMeter.runUpdates (m : AverageMeter) (vs : List (ℚ × ℕ)) : AverageMeter :=
  vs.foldl (fun a p => a.update p.1 p.2) m

/-- The weighted average `(∑ v * n) / (∑ n)` of a list of `(value, n)` pairs
(`0` for the empty list, by the rational convention `0 / 0 = 0`). -/
def weightedAvg (vs : List (ℚ × ℕ)) : ℚ :=
  (vs.map fun p => p.1 * (p.2 : ℚ)).sum / ((vs.map fun p => (p.2 : ℚ)).sum)

/-- The fix-base-layer decision shared by both engines
(`if (epoch+1)<=fixbase_epoch and open_layers is not None`): `some ls` means
`open_specified_layers(model, ls)` runs, `none` means `open_all_layers(model)`
runs. -/
def openDecision (epoch fixbaseEpoch : ℕ) (openLayers : Option (List String)) :
    Option (List String) :=
  if epoch + 1 ≤ fixbaseEpoch then openLayers else none

/-! ## The cluster-dependency engine
(`ImageClusterDependencyTripletDropBatchDropBotFeaturesEngine`) -/

/-- The constructor state of the cluster-dependency engine that `train` reads:
the ten loss weights and `top_drop_epoch` (constructor default `-1`). -/
structure CDConfig where
  weight_t : ℚ
  weight_x : ℚ
  weight_c : ℚ
  weight_db_t : ℚ
  weight_db_x : ℚ
  weight_db_c : ℚ
  weight_b_db_t : ℚ
  weight_b_db_x : ℚ
  weight_b_db_c : ℚ
  weight_dep : ℚ
  top_drop_epoch : ℤ
deriving DecidableEq

/-- The scalar observations the cluster-dependency engine makes on one batch:
the ten loss values returned by `_compute_loss`, `pids.size(0)`, the accuracy
metric, the optimizer's current learning rate, and the two timing deltas. -/
structure CDBatch where
  loss_t : ℚ
  loss_x : ℚ
  loss_c : ℚ
  loss_db_t : ℚ
  loss_db_x : ℚ
  loss_db_c : ℚ
  loss_b_db_t : ℚ
  loss_b_db_x : ℚ
  loss_b_db_c : ℚ
  loss_dep : ℚ
  batchSize : ℕ
  acc : ℚ
  lr : ℚ
  dataTime : ℚ
  batchTime : ℚ
deriving DecidableEq

/-- The thirteen `AverageMeter`s constructed at the top of the
cluster-dependency engine's `train`. -/
structure CDMeters where
  losses_t : AverageMeter
  losses_x : AverageMeter
  losses_c : AverageMeter
  losses_db_t : AverageMeter
  losses_db_x : AverageMeter
  losses_db_c : AverageMeter
  losses_b_db_t : AverageMeter
  losses_b_db_x : AverageMeter
  losses_b_db_c : AverageMeter
  losses_dep : AverageMeter
  accs : AverageMeter
  batch_time : AverageMeter
  data_time : AverageMeter
deriving DecidableEq

/-- Fresh meters, as constructed before the batch loop. -/
def CDMeters.init : CDMeters :=
  ⟨.init, .init, .init, .init, .init, .init, .init, .init, .init, .init,
   .init, .init, .init⟩

/-- The externally visible events of one cluster-dependency `train` call. -/
inductive CDEvent where
  | openSpecified (layers : List String)
  | openAll
  | zeroGrad
  | forward (dropTop : Bool)
  | backward (lossVal : ℚ)
  | optStep
  | printProgress (batchIdx : ℕ)
  | writerLog (nIter : ℕ) (scalars : List (String × ℚ))
  | schedStep
deriving DecidableEq

/-- `drop_top = (self.top_drop_epoch != -1) and ((epoch+1) >= self.top_drop_epoch)`. -/
def dropTopFlag (cfg : CDConfig) (epoch : ℕ) : Bool :=
  decide (cfg.top_drop_epoch ≠ -1) && decide (cfg.top_drop_epoch ≤ (epoch : ℤ) + 1)

/-- The combined loss of the cluster-dependency engine, in source order:
`loss = weight_t*loss_t + weight_x*loss_x + weight_db_t*loss_db_t +
weight_db_x*loss_db_x + weight_b_db_t*loss_b_db_t + weight_b_db_x*loss_b_db_x +
weight_c*loss_c + weight_db_c*loss_db_c + weight_b_db_c*loss_b_db_c +
weight_dep*loss_dep`. -/
def CDloss (cfg : CDConfig) (b : CDBatch) : ℚ :=
  cfg.weight_t * b.loss_t + cfg.weight_x * b.loss_x
    + cfg.weight_db_t * b.loss_db_t + cfg.weight_db_x * b.loss_db_x
    + cfg.weight_b_db_t * b.loss_b_db_t + cfg.weight_b_db_x * b.loss_b_db_x
    + cfg.weight_c * b.loss_c + cfg.weight_db_c * b.loss_db_c
    + cfg.weight_b_db_c * b.loss_b_db_c + cfg.weight_dep * b.loss_dep

/-- The meter updates one batch performs: `data_time.update`,
`batch_time.update`, the ten `losses_*.update(loss_*.item(), pids.size(0))`,
and `accs.update(metrics.accuracy(prelogits, pids)[0].item())`. -/
def CDmetersStep (M : CDMeters) (b : CDBatch) : CDMeters :=
  { losses_t := M.losses_t.update b.loss_t b.batchSize
    losses_x := M.losses_x.update b.loss_x b.batchSize
    losses_c := M.losses_c.update b.loss_c b.batchSize
    losses_db_t := M.losses_db_t.update b.loss_db_t b.batchSize
    losses_db_x := M.losses_db_x.update b.loss_db_x b.batchSize
    losses_db_c := M.losses_db_c.update b.loss_db_c b.batchSize
    losses_b_db_t := M.losses_b_db_t.update b.loss_b_db_t b.batchSize
    losses_b_db_x := M.losses_b_db_x.update b.loss_b_db_x b.batchSize
    losses_b_db_c := M.losses_b_db_c.update b.loss_b_db_c b.batchSize
    losses_dep := M.losses_dep.update b.loss_dep b.batchSize
    accs := M.accs.update b.acc 1
    batch_time := M.batch_time.update b.batchTime 1
    data_time := M.data_time.update b.dataTime 1 }

/-- Meters after a whole list of batches. -/
def CDapplyBatches (M : CDMeters) (l : List CDBatch) : CDMeters :=
  l.foldl CDmetersStep M

/-- The scalar tags and values the cluster-dependency engine hands to
`writer.add_scalar`, in source order. -/
def CDscalars (M : CDMeters) (lr : ℚ) : List (String × ℚ) :=
  [("Train/Time", M.batch_time.avg), ("Train/Data", M.data_time.avg),
   ("Train/Loss_t", M.losses_t.avg), ("Train/Loss_x", M.losses_x.avg),
   ("Train/Loss_c", M.losses_c.avg), ("Train/Loss_db_t", M.losses_db_t.avg),
   ("Train/Loss_db_x", M.losses_db_x.avg), ("Train/Loss_db_c", M.losses_db_c.avg),
   ("Train/Loss_b_db_t", M.losses_b_db_t.avg),
   ("Train/Loss_b_db_x", M.losses_b_db_x.avg),
   ("Train/Loss_b_db_c", M.losses_b_db_c.avg),
   ("Train/Loss_dep", M.losses_dep.avg),
   ("Train/Acc glob", M.accs.avg), ("Train/Lr", lr)]

/-- One iteration of the cluster-dependency batch loop, at batch index `i`:
returns the updated meters and the events the iteration emits, in order. -/
def CDprocessBatch (cfg : CDConfig) (epoch nb pf : ℕ) (w : Bool) (i : ℕ)
    (b : CDBatch) (M : CDMeters) : CDMeters × List CDEvent :=
  let M' := CDmetersStep M b
  (M',
    [CDEvent.zeroGrad, CDEvent.forward (dropTopFlag cfg epoch),
     CDEvent.backward (CDloss cfg b), CDEvent.optStep]
      ++ (if (i + 1) % pf = 0 then [CDEvent.printProgress i] else [])
      ++ (if w then [CDEvent.writerLog (epoch * nb + i) (CDscalars M' b.lr)] else []))

/-- The cluster-dependency batch loop, threading meters and batch index. -/
def CDloop (cfg : CDConfig) (epoch nb pf : ℕ) (w : Bool) :
    List CDBatch → ℕ → CDMeters → CDMeters × List CDEvent
  | [], _, M => (M, [])
  | b :: rest, i, M =>
    let step := CDprocessBatch cfg epoch nb pf w i b M
    let restOut := CDloop cfg epoch nb pf w rest (i + 1) step.1
    (restOut.1, step.2 ++ restOut.2)

/-- `ImageClusterDependencyTripletDropBatchDropBotFeaturesEngine.train`:
the open-layers decision, the batch loop over `trainloader`, and the final
scheduler step (when a scheduler is present).  `writerPresent` and
`schedPresent` model `self.writer is not None` and
`self.scheduler is not None`. -/
def CDtrain (cfg : CDConfig) (epoch maxEpoch : ℕ) (trainloader : List CDBatch)
    (fixbaseEpoch : ℕ) (openLayers : Option (List String)) (printFreq : ℕ)
    (writerPresent schedPresent : Bool) : CDMeters × List CDEvent :=
  let _ := maxEpoch
  let openEvt : CDEvent :=
    match openDecision epoch fixbaseEpoch openLayers with
    | some ls => CDEvent.openSpecified ls
    | none => CDEvent.openAll
  let body := CDloop cfg epoch trainloader.length printFreq writerPresent
    trainloader 0 CDMeters.init
  (body.1,
    openEvt :: body.2 ++ (if schedPresent then [CDEvent.schedStep] else []))

/-! ## The fgnet engine (`ImageTripletNpairsSoftmaxFGnetEngine`) -/

/-- The constructor state of the fgnet engine that `train` reads: the four
loss weights. -/
structure FGConfig where
  weight_t : ℚ
  weight_x : ℚ
  weight_n : ℚ
  weight_x_parts : ℚ
deriving DecidableEq

/-- The scalar observations the fgnet engine makes on one batch: the four loss
values, `pids.size(0)`, the accuracy metric, the learning rate, the timing
deltas, and for each entry of the model output `part_weights` the first
dimension `weights.size(0)` of its weights tensor. -/
structure FGBatch where
  loss_t : ℚ
  loss_x : ℚ
  loss_n : ℚ
  loss_x_parts : ℚ
  batchSize : ℕ
  acc : ℚ
  lr : ℚ
  dataTime : ℚ
  batchTime : ℚ
  part_weights : List ℕ
deriving DecidableEq

/-- The seven `AverageMeter`s constructed at the top of the fgnet engine's
`train`. -/
structure FGMeters where
  losses_t : AverageMeter
  losses_x : AverageMeter
  losses_n : AverageMeter
  losses_x_parts : AverageMeter
  accs : AverageMeter
  batch_time : AverageMeter
  data_time : AverageMeter
deriving DecidableEq

/-- Fresh meters, as constructed before the batch loop. -/
def FGMeters.init : FGMeters := ⟨.init, .init, .init, .init, .init, .init, .init⟩

/-- One histogram written by the fgnet engine's part-weights logging:
`add_histogram('Train/Part{i}/Batch{j}', weights[j, ...], n_iter)` for part
index `part = i`, inner index `idx = j`, where `size` records
`weights.size(0)` of the tensor being indexed. -/
structure HistEntry where
  part : ℕ
  idx : ℕ
  size : ℕ
deriving DecidableEq

/-- The histogram entries of one batch:
`for i, (_, weights) in enumerate(part_weights): for j in
range(min(weights.size(0), 3)): add_histogram(...)`, with `i0` the current
enumeration index (`0` at the call site). -/
def fgHistos (i0 : ℕ) : List ℕ → List HistEntry
  | [] => []
  | s :: rest =>
    ((List.range (min s 3)).map fun j => HistEntry.mk i0 j s) ++ fgHistos (i0 + 1) rest

/-- The externally visible events of one fgnet `train` call. -/
inductive FGEvent where
  | openSpecified (layers : List String)
  | openAll
  | zeroGrad
  | forward
  | backward (lossVal : ℚ)
  | optStep
  | printProgress (batchIdx : ℕ)
  | writerLog (nIter : ℕ) (scalars : List (String × ℚ)) (histos : List HistEntry)
  | schedStep
deriving DecidableEq

/-- The combined loss of the fgnet engine, in source order:
`loss = weight_t*loss_t + weight_x*loss_x + weight_n*loss_n +
weight_x_parts*loss_x_parts`. -/
def FGloss (cfg : FGConfig) (b : FGBatch) : ℚ :=
  cfg.weight_t * b.loss_t + cfg.weight_x * b.loss_x + cfg.weight_n * b.loss_n
    + cfg.weight_x_parts * b.loss_x_parts

/-- The meter updates one fgnet batch performs. -/
def FGmetersStep (M : FGMeters) (b : FGBatch) : FGMeters :=
  { losses_t := M.losses_t.update b.loss_t b.batchSize
    losses_x := M.losses_x.update b.loss_x b.batchSize
    losses_n := M.losses_n.update b.loss_n b.batchSize
    losses_x_parts := M.losses_x_parts.update b.loss_x_parts b.batchSize
    accs := M.accs.update b.acc 1
    batch_time := M.batch_time.update b.batchTime 1
    data_time := M.data_time.update b.dataTime 1 }

/-- Meters after a whole list of batches. -/
def FGapplyBatches (M : FGMeters) (l : List FGBatch) : FGMeters :=
  l.foldl FGmetersStep M

/-- The scalar tags and values the fgnet engine hands to `writer.add_scalar`,
in source order. -/
def FGscalars (M : FGMeters) (lr : ℚ) : List (String × ℚ) :=
  [("Train/Time", M.batch_time.avg), ("Train/Data", M.data_time.avg),
   ("Train/Loss_t", M.losses_t.avg), ("Train/Loss_x", M.losses_x.avg),
   ("Train/Loss_n", M.losses_n.avg),
   ("Train/Loss_x_parts", M.losses_x_parts.avg),
   ("Train/Acc glob", M.accs.avg), ("Train/Lr", lr)]

/-- One iteration of the fgnet batch loop at batch index `i`. -/
def FGprocessBatch (cfg : FGConfig) (epoch nb pf : ℕ) (w : Bool) (i : ℕ)
    (b : FGBatch) (M : FGMeters) : FGMeters × List FGEvent :=
  let M' := FGmetersStep M b
  (M',
    [FGEvent.zeroGrad, FGEvent.forward, FGEvent.backward (FGloss cfg b),
     FGEvent.optStep]
      ++ (if (i + 1) % pf = 0 then [FGEvent.printProgress i] else [])
      ++ (if w then
            [FGEvent.writerLog (epoch * nb + i) (FGscalars M' b.lr)
              (fgHistos 0 b.part_weights)]
          else []))

/-- The fgnet batch loop, threading meters and batch index. -/
def FGloop (cfg : FGConfig) (epoch nb pf : ℕ) (w : Bool) :
    List FGBatch → ℕ → FGMeters → FGMeters × List FGEvent
  | [], _, M => (M, [])
  | b :: rest, i, M =>
    let step := FGprocessBatch cfg epoch nb pf w i b M
    let restOut := FGloop cfg epoch nb pf w rest (i + 1) step.1
    (restOut.1, step.2 ++ restOut.2)

/-- `ImageTripletNpairsSoftmaxFGnetEngine.train`: the open-layers decision,
the batch loop over `trainloader`, and the final scheduler step (when a
scheduler is present). -/
def FGtrain (cfg : FGConfig) (epoch maxEpoch : ℕ) (trainloader : List FGBatch)
    (fixbaseEpoch : ℕ) (openLayers : Option (List String)) (printFreq : ℕ)
    (writerPresent schedPresent : Bool) : FGMeters × List FGEvent :=
  let _ := maxEpoch
  let openEvt : FGEvent :=
    match openDecision epoch fixbaseEpoch openLayers with
    | some ls => FGEvent.openSpecified ls
    | none => FGEvent.openAll
  let body := FGloop cfg epoch trainloader.length printFreq writerPresent
    trainloader 0 FGMeters.init
  (body.1,
    openEvt :: body.2 ++ (if schedPresent then [FGEvent.schedStep] else []))

/-! ## Fallible collaborators

`train` defines no `try`/`except`: an exception raised while processing a
batch (by the model forward, a loss criterion, the optimizer, the metrics, or
the writer) aborts the call and propagates unchanged.  We model the
collaborators of batch `i` as delivering either the batch's observations
(`Except.ok`) or an exception (`Except.error`). -/

/-- The cluster-dependency batch loop over fallible batch collaborators:
the first raised exception aborts the loop and is returned unchanged. -/
def CDloopE {ε : Type} (cfg : CDConfig) (epoch nb pf : ℕ) (w : Bool) :
    List (Except ε CDBatch) → ℕ → CDMeters → Except ε (CDMeters × List CDEvent)
  | [], _, M => Except.ok (M, [])
  | x :: rest, i, M =>
    match x with
    | Except.error e => Except.error e
    | Except.ok b =>
      let step := CDprocessBatch cfg epoch nb pf w i b M
      match CDloopE cfg epoch nb pf w rest (i + 1) step.1 with
      | Except.error e => Except.error e
      | Except.ok (M'', evts') => Except.ok (M'', step.2 ++ evts')

/-- `CDtrain` over fallible batch collaborators. -/
def CDtrainE {ε : Type} (cfg : CDConfig) (epoch maxEpoch : ℕ)
    (trainloader : List (Except ε CDBatch)) (fixbaseEpoch : ℕ)
    (openLayers : Option (List String)) (printFreq : ℕ)
    (writerPresent schedPresent : Bool) :
    Except ε (CDMeters × List CDEvent) :=
  let _ := maxEpoch
  let openEvt : CDEvent :=
    match openDecision epoch fixbaseEpoch openLayers with
    | some ls => CDEvent.openSpecified ls
    | none => CDEvent.openAll
  match CDloopE cfg epoch trainloader.length printFreq writerPresent
    trainloader 0 CDMeters.init with
  | Except.error e => Except.error e
  | Except.ok (M, evts) =>
    Except.ok (M,
      openEvt :: evts ++ (if schedPresent then [CDEvent.schedStep] else []))

/-- The fgnet batch loop over fallible batch collaborators. -/
def FGloopE {ε : Type} (cfg : FGConfig) (epoch nb pf : ℕ) (w : Bool) :
    List (Except ε FGBatch) → ℕ → FGMeters → Except ε (FGMeters × List FGEvent)
  | [], _, M => Except.ok (M, [])
  | x :: rest, i, M =>
    match x with
    | Except.error e => Except.error e
    | Except.ok b =>
      let step := FGprocessBatch cfg epoch nb pf w i b M
      match FGloopE cfg epoch nb pf w rest (i + 1) step.1 with
      | Except.error e => Except.error e
      | Except.ok (M'', evts') => Except.ok (M'', step.2 ++ evts')

/-- `FGtrain` over fallible batch collaborators. -/
def FGtrainE {ε : Type} (cfg : FGConfig) (epoch maxEpoch : ℕ)
    (trainloader : List (Except ε FGBatch)) (fixbaseEpoch : ℕ)
    (openLayers : Option (List String)) (printFreq : ℕ)
    (writerPresent schedPresent : Bool) :
    Except ε (FGMeters × List FGEvent) :=
  let _ := maxEpoch
  let openEvt : FGEvent :=
    match openDecision epoch fixbaseEpoch openLayers with
    | some ls => FGEvent.openSpecified ls
    | none => FGEvent.openAll
  match FGloopE cfg epoch trainloader.length printFreq writerPresent
    trainloader 0 FGMeters.init with
  | Except.error e => Except.error e
  | Except.ok (M, evts) =>
    Except.ok (M,
      openEvt :: evts ++ (if schedPresent then [FGEvent.schedStep] else []))

/-! ## Trace observations -/

/-- The values handed to `loss.backward()`, in trace order. -/
def CDbackwardVals (tr : List CDEvent) : List ℚ :=
  tr.filterMap fun ev =>
    match ev with
    | CDEvent.backward v => some v
    | _ => none

/-- The `drop_top` flags handed to the model forward calls, in trace order. -/
def CDforwardFlags (tr : List CDEvent) : List Bool :=
  tr.filterMap fun ev =>
    match ev with
    | CDEvent.forward f => some f
    | _ => none

/-- The per-batch gradient-step events: `zero_grad`, forward, `backward`,
`optimizer.step()`. -/
def CDisCore : CDEvent → Bool
  | CDEvent.zeroGrad => true
  | CDEvent.forward _ => true
  | CDEvent.backward _ => true
  | CDEvent.optStep => true
  | _ => false

/-- Whether an event is the open-layers decision. -/
def CDisOpen : CDEvent → Bool
  | CDEvent.openSpecified _ => true
  | CDEvent.openAll => true
  | _ => false

/-- The batch indices at which the console progress line is printed. -/
def CDprints (tr : List CDEvent) : List ℕ :=
  tr.filterMap fun ev =>
    match ev with
    | CDEvent.printProgress i => some i
    | _ => none

/-- The global steps `n_iter` of the writer-logging events, in trace order. -/
def CDnIters (tr : List CDEvent) : List ℕ :=
  tr.filterMap fun ev =>
    match ev with
    | CDEvent.writerLog n _ => some n
    | _ => none

/-- The values handed to `loss.backward()`, in trace order. -/
def FGbackwardVals (tr : List FGEvent) : List ℚ :=
  tr.filterMap fun ev =>
    match ev with
    | FGEvent.backward v => some v
    | _ => none

/-- The per-batch gradient-step events of the fgnet engine. -/
def FGisCore : FGEvent → Bool
  | FGEvent.zeroGrad => true
  | FGEvent.forward => true
  | FGEvent.backward _ => true
  | FGEvent.optStep => true
  | _ => false

/-- Whether an event is the open-layers decision. -/
def FGisOpen : FGEvent → Bool
  | FGEvent.openSpecified _ => true
  | FGEvent.openAll => true
  | _ => false

/-- The batch indices at which the console progress line is printed. -/
def FGprints (tr : List FGEvent) : List ℕ :=
  tr.filterMap fun ev =>
    match ev with
    | FGEvent.printProgress i => some i
    | _ => none

/-- The global steps `n_iter` of the writer-logging events, in trace order. -/
def FGnIters (tr : List FGEvent) : List ℕ :=
  tr.filterMap fun ev =>
    match ev with
    | FGEvent.writerLog n _ _ => some n
    | _ => none

/-! ## Control-flow skeleton

The common control shape of the two `train` methods, with the
engine-specific payloads (the `drop_top` flag of the forward call, the loss
value, the logged scalars and histograms) erased. -/

/-- A control-flow event common to both engines. -/
inductive SkelEvent where
  | openSpecified (layers : List String)
  | openAll
  | zeroGrad
  | forward
  | backward
  | optStep
  | printProgress (batchIdx : ℕ)
  | writerLog (nIter : ℕ)
  | schedStep
deriving DecidableEq

/-- Erase the cluster-dependency payloads. -/
def CDskel : CDEvent → SkelEvent
  | CDEvent.openSpecified ls => SkelEvent.openSpecified ls
  | CDEvent.openAll => SkelEvent.openAll
  | CDEvent.zeroGrad => SkelEvent.zeroGrad
  | CDEvent.forward _ => SkelEvent.forward
  | CDEvent.backward _ => SkelEvent.backward
  | CDEvent.optStep => SkelEvent.optStep
  | CDEvent.printProgress i => SkelEvent.printProgress i
  | CDEvent.writerLog n _ => SkelEvent.writerLog n
  | CDEvent.schedStep => SkelEvent.schedStep

/-- Erase the fgnet payloads. -/
def FGskel : FGEvent → SkelEvent
  | FGEvent.openSpecified ls => SkelEvent.openSpecified ls
  | FGEvent.openAll => SkelEvent.openAll
  | FGEvent.zeroGrad => SkelEvent.zeroGrad
  | FGEvent.forward => SkelEvent.forward
  | FGEvent.backward _ => SkelEvent.backward
  | FGEvent.optStep => SkelEvent.optStep
  | FGEvent.printProgress i => SkelEvent.printProgress i
  | FGEvent.writerLog n _ _ => SkelEvent.writerLog n
  | FGEvent.schedStep => SkelEvent.schedStep

/-- The control skeleton of one batch iteration.  Per the spec the two
engines are "training-loop variants differing only in which loss terms they
combine and which model outputs they consume": this is the per-batch control
shape shared by both. -/
def skelBatch (e nb pf : ℕ) (w : Bool) (i : ℕ) : List SkelEvent :=
  [SkelEvent.zeroGrad, SkelEvent.forward, SkelEvent.backward, SkelEvent.optStep]
    ++ (if (i + 1) % pf = 0 then [SkelEvent.printProgress i] else [])
    ++ (if w then [SkelEvent.writerLog (e * nb + i)] else [])

/-- The control skeleton of `n` remaining batch iterations starting at batch
index `i`. -/
def skelLoop (e nb pf : ℕ) (w : Bool) : ℕ → ℕ → List SkelEvent
  | _, 0 => []
  | i, n + 1 => skelBatch e nb pf w i ++ skelLoop e nb pf w (i + 1) n

/-- The control skeleton of a whole `train` call with `n` batches. -/
def skelTrain (e n fixbaseEpoch : ℕ) (openLayers : Option (List String))
    (pf : ℕ) (w s : Bool) : List SkelEvent :=
  (match openDecision e fixbaseEpoch openLayers with
   | some ls => SkelEvent.openSpecified ls
   | none => SkelEvent.openAll)
    :: skelLoop e n pf w 0 n ++ (if s then [SkelEvent.schedStep] else [])

/-! ## Sample data for concrete witnesses -/

/-- A concrete cluster-dependency configuration with all weights `1` and the
constructor-default `top_drop_epoch = -1`. -/
def sampleCDConfig : CDConfig := ⟨1, 1, 1, 1, 1, 1, 1, 1, 1, 1, -1⟩

/-- A concrete fgnet configuration with all weights `1`. -/
def sampleFGConfig : FGConfig := ⟨1, 1, 1, 1⟩

/-- A concrete cluster-dependency batch observation. -/
def sampleCDBatch : CDBatch := ⟨1, 2, 3, 4, 5, 6, 7, 8, 9, 10, 4, 1, 1, 1, 1⟩

/-- A concrete fgnet batch observation with two parts of first dimensions
`2` and `5`. -/
def sampleFGBatch : FGBatch := ⟨1, 2, 3, 4, 4, 1, 1, 1, 1, [2, 5]⟩

/-! ## Meter lemmas -/

lemma AverageMeter.runUpdates_nil (m : AverageMeter) : m.runUpdates [] = m := rfl

lemma AverageMeter.runUpdates_cons (m : AverageMeter) (p : ℚ × ℕ)
    (vs : List (ℚ × ℕ)) :
    m.runUpdates (p :: vs) = (m.update p.1 p.2).runUpdates vs := rfl

lemma AverageMeter.runUpdates_sum (vs : List (ℚ × ℕ)) :
    ∀ m : AverageMeter,
      (m.runUpdates vs).sum = m.sum + (vs.map fun p => p.1 * (p.2 : ℚ)).sum := by
  induction vs with
  | nil => intro m; simp [AverageMeter.runUpdates]
  | cons p vs ih =>
    intro m
    rw [AverageMeter.runUpdates_cons, ih]
    simp [AverageMeter.update]
    ring

lemma AverageMeter.runUpdates_count (vs : List (ℚ × ℕ)) :
    ∀ m : AverageMeter,
      (m.runUpdates vs).count = m.count + (vs.map fun p => ((p.2 : ℚ))).sum := by
  induction vs with
  | nil => intro m; simp [AverageMeter.runUpdates]
  | cons p vs ih =>
    intro m
    rw [AverageMeter.runUpdates_cons, ih]
    simp [AverageMeter.update]
    ring

lemma AverageMeter.runUpdates_avg (vs : List (ℚ × ℕ)) :
    ∀ m : AverageMeter, m.avg = m.sum / m.count →
      (m.runUpdates vs).avg = (m.runUpdates vs).sum / (m.runUpdates vs).count := by
  induction vs with
  | nil => intro m h; simpa [AverageMeter.runUpdates] using h
  | cons p vs ih =>
    intro m _
    rw [AverageMeter.runUpdates_cons]
    exact ih _ rfl

/-- A fold of updates starting from a fresh meter reports exactly the
weighted average of the recorded values. -/
lemma AverageMeter.init_runUpdates_avg (vs : List (ℚ × ℕ)) :
    (AverageMeter.init.runUpdates vs).avg = weightedAvg vs := by
  rw [AverageMeter.runUpdates_avg vs AverageMeter.init (by simp [AverageMeter.init]),
    AverageMeter.runUpdates_sum, AverageMeter.runUpdates_count]
  simp [AverageMeter.init, weightedAvg]

lemma filterMap_ite_singleton {α β : Type} (f : α → Option β) (c : Prop)
    [Decidable c] (x : α) :
    List.filterMap f (if c then [x] else []) =
      if c then (f x).toList else [] := by
  split
  · cases h : f x <;> simp [List.filterMap_cons, h]
  · simp

/-! ## Cluster-dependency loop lemmas -/

lemma CDloop_nil (cfg : CDConfig) (e nb pf : ℕ) (w : Bool) (i : ℕ)
    (M : CDMeters) : CDloop cfg e nb pf w [] i M = (M, []) := rfl

lemma CDloop_cons (cfg : CDConfig) (e nb pf : ℕ) (w : Bool) (i : ℕ)
    (b : CDBatch) (rest : List CDBatch) (M : CDMeters) :
    CDloop cfg e nb pf w (b :: rest) i M =
      ((CDloop cfg e nb pf w rest (i + 1) (CDmetersStep M b)).1,
        (CDprocessBatch cfg e nb pf w i b M).2
          ++ (CDloop cfg e nb pf w rest (i + 1) (CDmetersStep M b)).2) := rfl

/-- The meter component of the loop is the plain fold of the per-batch meter
updates over the delivered batches. -/
lemma CDloop_meters (cfg : CDConfig) (e nb pf : ℕ) (w : Bool) :
    ∀ (l : List CDBatch) (i : ℕ) (M : CDMeters),
      (CDloop cfg e nb pf w l i M).1 = CDapplyBatches M l := by
  intro l
  induction l with
  | nil => intro i M; rfl
  | cons b rest ih =>
    intro i M
    rw [CDloop_cons]
    exact ih (i + 1) (CDmetersStep M b)

/-- Each meter after a fold of batch steps is the corresponding fold of
`AverageMeter.update`s. -/
lemma CDapplyBatches_eq (l : List CDBatch) :
    ∀ M : CDMeters,
      CDapplyBatches M l =
        { losses_t := M.losses_t.runUpdates (l.map fun b => (b.loss_t, b.batchSize))
          losses_x := M.losses_x.runUpdates (l.map fun b => (b.loss_x, b.batchSize))
          losses_c := M.losses_c.runUpdates (l.map fun b => (b.loss_c, b.batchSize))
          losses_db_t := M.losses_db_t.runUpdates (l.map fun b => (b.loss_db_t, b.batchSize))
          losses_db_x := M.losses_db_x.runUpdates (l.map fun b => (b.loss_db_x, b.batchSize))
          losses_db_c := M.losses_db_c.runUpdates (l.map fun b => (b.loss_db_c, b.batchSize))
          losses_b_db_t := M.losses_b_db_t.runUpdates (l.map fun b => (b.loss_b_db_t, b.batchSize))
          losses_b_db_x := M.losses_b_db_x.runUpdates (l.map fun b => (b.loss_b_db_x, b.batchSize))
          losses_b_db_c := M.losses_b_db_c.runUpdates (l.map fun b => (b.loss_b_db_c, b.batchSize))
          losses_dep := M.losses_dep.runUpdates (l.map fun b => (b.loss_dep, b.batchSize))
          accs := M.accs.runUpdates (l.map fun b => (b.acc, 1))
          batch_time := M.batch_time.runUpdates (l.map fun b => (b.batchTime, 1))
          data_time := M.data_time.runUpdates (l.map fun b => (b.dataTime, 1)) } := by
  induction l with
  | nil => intro M; rfl
  | cons b rest ih =>
    intro M
    show CDapplyBatches (CDmetersStep M b) rest = _
    rw [ih]
    rfl

/-- The backpropagated scalars of the loop are exactly the combined losses of
the delivered batches, in order. -/
lemma CDloop_backwardVals (cfg : CDConfig) (e nb pf : ℕ) (w : Bool) :
    ∀ (l : List CDBatch) (i : ℕ) (M : CDMeters),
      CDbackwardVals (CDloop cfg e nb pf w l i M).2 = l.map (CDloss cfg) := by
  intro l
  induction l with
  | nil => intro i M; rfl
  | cons b rest ih =>
    intro i M
    rw [CDloop_cons]
    have h := ih (i + 1) (CDmetersStep M b)
    simp only [CDbackwardVals] at h ⊢
    simp only [CDprocessBatch, List.filterMap_append, List.filterMap_cons,
      filterMap_ite_singleton]
    rw [h]
    simp

/-- The `drop_top` flags of the loop's forward calls are all
`dropTopFlag cfg epoch`, one per delivered batch. -/
lemma CDloop_forwardFlags (cfg : CDConfig) (e nb pf : ℕ) (w : Bool) :
    ∀ (l : List CDBatch) (i : ℕ) (M : CDMeters),
      CDforwardFlags (CDloop cfg e nb pf w l i M).2 =
        l.map fun _ => dropTopFlag cfg e := by
  intro l
  induction l with
  | nil => intro i M; rfl
  | cons b rest ih =>
    intro i M
    rw [CDloop_cons]
    have h := ih (i + 1) (CDmetersStep M b)
    simp only [CDforwardFlags] at h ⊢
    simp only [CDprocessBatch, List.filterMap_append, List.filterMap_cons,
      filterMap_ite_singleton]
    rw [h]
    simp

lemma mem_ite_singleton {α : Type} {ev x : α} {c : Prop} [Decidable c]
    (h : ev ∈ (if c then [x] else [])) : ev = x := by
  split at h
  · simpa using h
  · simp at h

/-- The batch indices the loop prints at are those whose successor is a
multiple of `print_freq`. -/
lemma CDloop_prints (cfg : CDConfig) (e nb pf : ℕ) (w : Bool) :
    ∀ (l : List CDBatch) (i : ℕ) (M : CDMeters),
      CDprints (CDloop cfg e nb pf w l i M).2 =
        (List.range' i l.length).filter fun k => (k + 1) % pf == 0 := by
  intro l
  induction l with
  | nil => intro i M; rfl
  | cons b rest ih =>
    intro i M
    rw [CDloop_cons]
    have h := ih (i + 1) (CDmetersStep M b)
    simp only [CDprints] at h ⊢
    simp only [CDprocessBatch, List.filterMap_append, List.filterMap_cons,
      filterMap_ite_singleton]
    rw [h]
    simp only [List.length_cons, List.range'_succ, List.filter_cons]
    by_cases hc : (i + 1) % pf = 0 <;> simp [hc]

/-- The writer global steps of the loop: `epoch * num_batches + batch_idx`
for each delivered batch, in order (and none when the writer is absent). -/
lemma CDloop_nIters (cfg : CDConfig) (e nb pf : ℕ) (w : Bool) :
    ∀ (l : List CDBatch) (i : ℕ) (M : CDMeters),
      CDnIters (CDloop cfg e nb pf w l i M).2 =
        if w then (List.range' i l.length).map fun k => e * nb + k else [] := by
  intro l
  induction l with
  | nil => intro i M; cases w <;> rfl
  | cons b rest ih =>
    intro i M
    rw [CDloop_cons]
    have h := ih (i + 1) (CDmetersStep M b)
    simp only [CDnIters] at h ⊢
    simp only [CDprocessBatch, List.filterMap_append, List.filterMap_cons,
      filterMap_ite_singleton]
    rw [h]
    simp only [List.length_cons, List.range'_succ, List.map_cons]
    cases w <;> by_cases hc : (i + 1) % pf = 0 <;> simp [hc]

/-- The gradient-step events of the loop: for each delivered batch, in order,
exactly `zero_grad`, the forward call, the backward pass on the combined
loss, and the optimizer step. -/
lemma CDloop_core (cfg : CDConfig) (e nb pf : ℕ) (w : Bool) :
    ∀ (l : List CDBatch) (i : ℕ) (M : CDMeters),
      (CDloop cfg e nb pf w l i M).2.filter CDisCore =
        (l.map fun b =>
          [CDEvent.zeroGrad, CDEvent.forward (dropTopFlag cfg e),
           CDEvent.backward (CDloss cfg b), CDEvent.optStep]).flatten := by
  intro l
  induction l with
  | nil => intro i M; rfl
  | cons b rest ih =>
    intro i M
    rw [CDloop_cons]
    simp only [List.filter_append]
    rw [ih (i + 1) (CDmetersStep M b)]
    simp only [CDprocessBatch, List.filter_append, List.filter_cons,
      List.map_cons, List.flatten_cons, apply_ite (List.filter CDisCore)]
    by_cases hc : (i + 1) % pf = 0 <;> cases w <;> simp [hc, CDisCore]

/-- The loop performs exactly one optimizer step per delivered batch. -/
lemma CDloop_optStep_count (cfg : CDConfig) (e nb pf : ℕ) (w : Bool) :
    ∀ (l : List CDBatch) (i : ℕ) (M : CDMeters),
      (CDloop cfg e nb pf w l i M).2.countP (fun ev => ev == CDEvent.optStep) =
        l.length := by
  intro l
  induction l with
  | nil => intro i M; rfl
  | cons b rest ih =>
    intro i M
    rw [CDloop_cons]
    rw [List.countP_append, ih (i + 1) (CDmetersStep M b)]
    simp only [CDprocessBatch, List.countP_append, List.countP_cons,
      apply_ite (List.countP fun ev => ev == CDEvent.optStep)]
    by_cases hc : (i + 1) % pf = 0 <;> cases w <;> simp [hc, Nat.add_comm]

/-- Every event a batch iteration emits is a gradient-step, print, or
writer-logging event: never the open-layers decision nor a scheduler step. -/
lemma CDprocessBatch_mem (cfg : CDConfig) (e nb pf : ℕ) (w : Bool) (i : ℕ)
    (b : CDBatch) (M : CDMeters) (ev : CDEvent)
    (h : ev ∈ (CDprocessBatch cfg e nb pf w i b M).2) :
    CDisOpen ev = false ∧ ev ≠ CDEvent.schedStep := by
  simp only [CDprocessBatch, List.mem_append, List.mem_cons,
    List.not_mem_nil, or_false] at h
  rcases h with ((rfl | rfl | rfl | rfl) | h) | h
  · exact ⟨rfl, by simp⟩
  · exact ⟨rfl, by simp⟩
  · exact ⟨rfl, by simp⟩
  · exact ⟨rfl, by simp⟩
  · rw [mem_ite_singleton h]; exact ⟨rfl, by simp⟩
  · rw [mem_ite_singleton h]; exact ⟨rfl, by simp⟩

/-- No event of the batch loop is an open-layers decision or a scheduler
step. -/
lemma CDloop_shape (cfg : CDConfig) (e nb pf : ℕ) (w : Bool) :
    ∀ (l : List CDBatch) (i : ℕ) (M : CDMeters) (ev : CDEvent),
      ev ∈ (CDloop cfg e nb pf w l i M).2 →
        CDisOpen ev = false ∧ ev ≠ CDEvent.schedStep := by
  intro l
  induction l with
  | nil => intro i M ev h; simp [CDloop_nil] at h
  | cons b rest ih =>
    intro i M ev h
    rw [CDloop_cons] at h
    rcases List.mem_append.mp h with h | h
    · exact CDprocessBatch_mem cfg e nb pf w i b M ev h
    · exact ih (i + 1) (CDmetersStep M b) ev h

/-! ## Fgnet loop lemmas -/

lemma FGloop_nil (cfg : FGConfig) (e nb pf : ℕ) (w : Bool) (i : ℕ)
    (M : FGMeters) : FGloop cfg e nb pf w [] i M = (M, []) := rfl

lemma FGloop_cons (cfg : FGConfig) (e nb pf : ℕ) (w : Bool) (i : ℕ)
    (b : FGBatch) (rest : List FGBatch) (M : FGMeters) :
    FGloop cfg e nb pf w (b :: rest) i M =
      ((FGloop cfg e nb pf w rest (i + 1) (FGmetersStep M b)).1,
        (FGprocessBatch cfg e nb pf w i b M).2
          ++ (FGloop cfg e nb pf w rest (i + 1) (FGmetersStep M b)).2) := rfl

/-- The meter component of the fgnet loop is the plain fold of the per-batch
meter updates over the delivered batches. -/
lemma FGloop_meters (cfg : FGConfig) (e nb pf : ℕ) (w : Bool) :
    ∀ (l : List FGBatch) (i : ℕ) (M : FGMeters),
      (FGloop cfg e nb pf w l i M).1 = FGapplyBatches M l := by
  intro l
  induction l with
  | nil => intro i M; rfl
  | cons b rest ih =>
    intro i M
    rw [FGloop_cons]
    exact ih (i + 1) (FGmetersStep M b)

/-- Each fgnet meter after a fold of batch steps is the corresponding fold of
`AverageMeter.update`s. -/
lemma FGapplyBatches_eq (l : List FGBatch) :
    ∀ M : FGMeters,
      FGapplyBatches M l =
        { losses_t := M.losses_t.runUpdates (l.map fun b => (b.loss_t, b.batchSize))
          losses_x := M.losses_x.runUpdates (l.map fun b => (b.loss_x, b.batchSize))
          losses_n := M.losses_n.runUpdates (l.map fun b => (b.loss_n, b.batchSize))
          losses_x_parts := M.losses_x_parts.runUpdates (l.map fun b => (b.loss_x_parts, b.batchSize))
          accs := M.accs.runUpdates (l.map fun b => (b.acc, 1))
          batch_time := M.batch_time.runUpdates (l.map fun b => (b.batchTime, 1))
          data_time := M.data_time.runUpdates (l.map fun b => (b.dataTime, 1)) } := by
  induction l with
  | nil => intro M; rfl
  | cons b rest ih =>
    intro M
    show FGapplyBatches (FGmetersStep M b) rest = _
    rw [ih]
    rfl

/-- The backpropagated scalars of the fgnet loop are exactly the combined
losses of the delivered batches, in order. -/
lemma FGloop_backwardVals (cfg : FGConfig) (e nb pf : ℕ) (w : Bool) :
    ∀ (l : List FGBatch) (i : ℕ) (M : FGMeters),
      FGbackwardVals (FGloop cfg e nb pf w l i M).2 = l.map (FGloss cfg) := by
  intro l
  induction l with
  | nil => intro i M; rfl
  | cons b rest ih =>
    intro i M
    rw [FGloop_cons]
    have h := ih (i + 1) (FGmetersStep M b)
    simp only [FGbackwardVals] at h ⊢
    simp only [FGprocessBatch, List.filterMap_append, List.filterMap_cons,
      filterMap_ite_singleton]
    rw [h]
    simp

/-- The batch indices the fgnet loop prints at. -/
lemma FGloop_prints (cfg : FGConfig) (e nb pf : ℕ) (w : Bool) :
    ∀ (l : List FGBatch) (i : ℕ) (M : FGMeters),
      FGprints (FGloop cfg e nb pf w l i M).2 =
        (List.range' i l.length).filter fun k => (k + 1) % pf == 0 := by
  intro l
  induction l with
  | nil => intro i M; rfl
  | cons b rest ih =>
    intro i M
    rw [FGloop_cons]
    have h := ih (i + 1) (FGmetersStep M b)
    simp only [FGprints] at h ⊢
    simp only [FGprocessBatch, List.filterMap_append, List.filterMap_cons,
      filterMap_ite_singleton]
    rw [h]
    simp only [List.length_cons, List.range'_succ, List.filter_cons]
    by_cases hc : (i + 1) % pf = 0 <;> simp [hc]

/-- The writer global steps of the fgnet loop. -/
lemma FGloop_nIters (cfg : FGConfig) (e nb pf : ℕ) (w : Bool) :
    ∀ (l : List FGBatch) (i : ℕ) (M : FGMeters),
      FGnIters (FGloop cfg e nb pf w l i M).2 =
        if w then (List.range' i l.length).map fun k => e * nb + k else [] := by
  intro l
  induction l with
  | nil => intro i M; cases w <;> rfl
  | cons b rest ih =>
    intro i M
    rw [FGloop_cons]
    have h := ih (i + 1) (FGmetersStep M b)
    simp only [FGnIters] at h ⊢
    simp only [FGprocessBatch, List.filterMap_append, List.filterMap_cons,
      filterMap_ite_singleton]
    rw [h]
    simp only [List.length_cons, List.range'_succ, List.map_cons]
    cases w <;> by_cases hc : (i + 1) % pf = 0 <;> simp [hc]

/-- The gradient-step events of the fgnet loop. -/
lemma FGloop_core (cfg : FGConfig) (e nb pf : ℕ) (w : Bool) :
    ∀ (l : List FGBatch) (i : ℕ) (M : FGMeters),
      (FGloop cfg e nb pf w l i M).2.filter FGisCore =
        (l.map fun b =>
          [FGEvent.zeroGrad, FGEvent.forward,
           FGEvent.backward (FGloss cfg b), FGEvent.optStep]).flatten := by
  intro l
  induction l with
  | nil => intro i M; rfl
  | cons b rest ih =>
    intro i M
    rw [FGloop_cons]
    simp only [List.filter_append]
    rw [ih (i + 1) (FGmetersStep M b)]
    simp only [FGprocessBatch, List.filter_append, List.filter_cons,
      List.map_cons, List.flatten_cons, apply_ite (List.filter FGisCore)]
    by_cases hc : (i + 1) % pf = 0 <;> cases w <;> simp [hc, FGisCore]

/-- The fgnet loop performs exactly one optimizer step per delivered batch. -/
lemma FGloop_optStep_count (cfg : FGConfig) (e nb pf : ℕ) (w : Bool) :
    ∀ (l : List FGBatch) (i : ℕ) (M : FGMeters),
      (FGloop cfg e nb pf w l i M).2.countP (fun ev => ev == FGEvent.optStep) =
        l.length := by
  intro l
  induction l with
  | nil => intro i M; rfl
  | cons b rest ih =>
    intro i M
    rw [FGloop_cons]
    rw [List.countP_append, ih (i + 1) (FGmetersStep M b)]
    simp only [FGprocessBatch, List.countP_append, List.countP_cons,
      apply_ite (List.countP fun ev => ev == FGEvent.optStep)]
    by_cases hc : (i + 1) % pf = 0 <;> cases w <;> simp [hc, Nat.add_comm]

/-- Every event a fgnet batch iteration emits: never an open-layers decision
or a scheduler step, and its histograms (if any) are exactly the part-weights
histograms of the batch. -/
lemma FGprocessBatch_mem (cfg : FGConfig) (e nb pf : ℕ) (w : Bool) (i : ℕ)
    (b : FGBatch) (M : FGMeters) (ev : FGEvent)
    (h : ev ∈ (FGprocessBatch cfg e nb pf w i b M).2) :
    FGisOpen ev = false ∧ ev ≠ FGEvent.schedStep ∧
      ∀ n sc hs, ev = FGEvent.writerLog n sc hs →
        hs = fgHistos 0 b.part_weights := by
  simp only [FGprocessBatch, List.mem_append, List.mem_cons,
    List.not_mem_nil, or_false] at h
  rcases h with ((rfl | rfl | rfl | rfl) | h) | h
  · exact ⟨rfl, by simp, by intro n sc hs hh; cases hh⟩
  · exact ⟨rfl, by simp, by intro n sc hs hh; cases hh⟩
  · exact ⟨rfl, by simp, by intro n sc hs hh; cases hh⟩
  · exact ⟨rfl, by simp, by intro n sc hs hh; cases hh⟩
  · rw [mem_ite_singleton h]
    exact ⟨rfl, by simp, by intro n sc hs hh; cases hh⟩
  · rw [mem_ite_singleton h]
    refine ⟨rfl, by simp, ?_⟩
    intro n sc hs hh
    cases hh
    rfl

/-- No event of the fgnet batch loop is an open-layers decision or a
scheduler step, and every histogram list it logs is the part-weights
histogram list of one of the delivered batches. -/
lemma FGloop_shape (cfg : FGConfig) (e nb pf : ℕ) (w : Bool) :
    ∀ (l : List FGBatch) (i : ℕ) (M : FGMeters) (ev : FGEvent),
      ev ∈ (FGloop cfg e nb pf w l i M).2 →
        FGisOpen ev = false ∧ ev ≠ FGEvent.schedStep ∧
          ∀ n sc hs, ev = FGEvent.writerLog n sc hs →
            ∃ b ∈ l, hs = fgHistos 0 b.part_weights := by
  intro l
  induction l with
  | nil => intro i M ev h; simp [FGloop_nil] at h
  | cons b rest ih =>
    intro i M ev h
    rw [FGloop_cons] at h
    rcases List.mem_append.mp h with h | h
    · obtain ⟨h1, h2, h3⟩ := FGprocessBatch_mem cfg e nb pf w i b M ev h
      exact ⟨h1, h2, fun n sc hs hh => ⟨b, List.mem_cons_self b rest, h3 n sc hs hh⟩⟩
    · obtain ⟨h1, h2, h3⟩ := ih (i + 1) (FGmetersStep M b) ev h
      refine ⟨h1, h2, fun n sc hs hh => ?_⟩
      obtain ⟨b', hb', hhs⟩ := h3 n sc hs hh
      exact ⟨b', List.mem_cons_of_mem b hb', hhs⟩

/-! ## Part-weights histogram lemmas -/

/-- Every histogram entry indexes its weights tensor in bounds (`idx < size`)
with an inner index below `3`, and carries a part index at least the current
enumeration index. -/
lemma fgHistos_mem : ∀ (pw : List ℕ) (i0 : ℕ) (h : HistEntry),
    h ∈ fgHistos i0 pw → h.idx < h.size ∧ h.idx < 3 ∧ i0 ≤ h.part := by
  intro pw
  induction pw with
  | nil => intro i0 h hh; simp [fgHistos] at hh
  | cons s rest ih =>
    intro i0 h hh
    simp only [fgHistos, List.mem_append, List.mem_map, List.mem_range] at hh
    rcases hh with ⟨j, hj, rfl⟩ | hh
    · exact ⟨lt_of_lt_of_le hj (min_le_left s 3),
        lt_of_lt_of_le hj (min_le_right s 3), le_refl i0⟩
    · obtain ⟨h1, h2, h3⟩ := ih (i0 + 1) h hh
      exact ⟨h1, h2, le_trans (Nat.le_succ i0) h3⟩

/-- At most three histogram entries carry any given part index. -/
lemma fgHistos_countP_le : ∀ (pw : List ℕ) (i0 i : ℕ),
    (fgHistos i0 pw).countP (fun h => h.part == i) ≤ 3 := by
  intro pw
  induction pw with
  | nil => intro i0 i; simp [fgHistos]
  | cons s rest ih =>
    intro i0 i
    rw [fgHistos, List.countP_append, List.countP_map]
    by_cases hi : i0 = i
    · subst hi
      have hrest : (fgHistos (i0 + 1) rest).countP (fun h => h.part == i0) = 0 := by
        rw [List.countP_eq_zero]
        intro h hh
        have h3 := (fgHistos_mem rest (i0 + 1) h hh).2.2
        simp only [beq_iff_eq]
        omega
      have hblock :
          (List.range (min s 3)).countP
              ((fun h => h.part == i0) ∘ fun j => HistEntry.mk i0 j s) =
            min s 3 := by
        have hp : ((fun h => h.part == i0) ∘ fun j => HistEntry.mk i0 j s) =
            fun _ => true := by
          funext j; simp
        rw [hp, List.countP_true, List.length_range]
      rw [hrest, hblock]
      omega
    · have hblock :
          (List.range (min s 3)).countP
              ((fun h => h.part == i) ∘ fun j => HistEntry.mk i0 j s) = 0 := by
        rw [List.countP_eq_zero]
        intro j _
        simp only [Function.comp, beq_iff_eq]
        exact hi
      rw [hblock]
      simpa using ih (i0 + 1) i

/-! ## Skeleton lemmas -/

/-- Erasing the engine-specific payloads from the cluster-dependency loop
trace leaves the common skeleton. -/
lemma CDloop_skel (cfg : CDConfig) (e nb pf : ℕ) (w : Bool) :
    ∀ (l : List CDBatch) (i : ℕ) (M : CDMeters),
      (CDloop cfg e nb pf w l i M).2.map CDskel = skelLoop e nb pf w i l.length := by
  intro l
  induction l with
  | nil => intro i M; rfl
  | cons b rest ih =>
    intro i M
    rw [CDloop_cons]
    simp only [List.map_append]
    rw [ih (i + 1) (CDmetersStep M b)]
    simp only [List.length_cons, skelLoop, skelBatch, CDprocessBatch,
      List.map_append, List.map_cons, List.map_nil,
      apply_ite (List.map CDskel)]
    rfl

/-- Erasing the engine-specific payloads from the fgnet loop trace leaves
the common skeleton. -/
lemma FGloop_skel (cfg : FGConfig) (e nb pf : ℕ) (w : Bool) :
    ∀ (l : List FGBatch) (i : ℕ) (M : FGMeters),
      (FGloop cfg e nb pf w l i M).2.map FGskel = skelLoop e nb pf w i l.length := by
  intro l
  induction l with
  | nil => intro i M; rfl
  | cons b rest ih =>
    intro i M
    rw [FGloop_cons]
    simp only [List.map_append]
    rw [ih (i + 1) (FGmetersStep M b)]
    simp only [List.length_cons, skelLoop, skelBatch, FGprocessBatch,
      List.map_append, List.map_cons, List.map_nil,
      apply_ite (List.map FGskel)]
    rfl

/-- The skeleton of a whole cluster-dependency `train` call. -/
lemma CDtrain_skel (cfg : CDConfig) (e me : ℕ) (l : List CDBatch)
    (fb : ℕ) (ol : Option (List String)) (pf : ℕ) (w s : Bool) :
    (CDtrain cfg e me l fb ol pf w s).2.map CDskel =
      skelTrain e l.length fb ol pf w s := by
  simp only [CDtrain, skelTrain, List.map_cons, List.map_append,
    apply_ite (List.map CDskel)]
  rw [CDloop_skel]
  cases openDecision e fb ol <;> cases s <;> rfl

/-- The skeleton of a whole fgnet `train` call. -/
lemma FGtrain_skel (cfg : FGConfig) (e me : ℕ) (l : List FGBatch)
    (fb : ℕ) (ol : Option (List String)) (pf : ℕ) (w s : Bool) :
    (FGtrain cfg e me l fb ol pf w s).2.map FGskel =
      skelTrain e l.length fb ol pf w s := by
  simp only [FGtrain, skelTrain, List.map_cons, List.map_append,
    apply_ite (List.map FGskel)]
  rw [FGloop_skel]
  cases openDecision e fb ol <;> cases s <;> rfl

/-! ## Error propagation lemmas -/

lemma CDprocessBatch_fst (cfg : CDConfig) (e nb pf : ℕ) (w : Bool) (i : ℕ)
    (b : CDBatch) (M : CDMeters) :
    (CDprocessBatch cfg e nb pf w i b M).1 = CDmetersStep M b := rfl

lemma FGprocessBatch_fst (cfg : FGConfig) (e nb pf : ℕ) (w : Bool) (i : ℕ)
    (b : FGBatch) (M : FGMeters) :
    (FGprocessBatch cfg e nb pf w i b M).1 = FGmetersStep M b := rfl

/-- On all-successful collaborators the fallible loop refines the plain
loop. -/
lemma CDloopE_ok {ε : Type} (cfg : CDConfig) (e nb pf : ℕ) (w : Bool) :
    ∀ (l : List CDBatch) (i : ℕ) (M : CDMeters),
      CDloopE (ε := ε) cfg e nb pf w (l.map Except.ok) i M =
        Except.ok (CDloop cfg e nb pf w l i M) := by
  intro l
  induction l with
  | nil => intro i M; rfl
  | cons b rest ih =>
    intro i M
    simp only [List.map_cons, CDloopE, CDprocessBatch_fst]
    rw [ih (i + 1) (CDmetersStep M b)]
    rfl

/-- The first exception raised while processing a batch aborts the loop and
is returned unchanged. -/
lemma CDloopE_error {ε : Type} (cfg : CDConfig) (e nb pf : ℕ) (w : Bool)
    (err : ε) (rest : List (Except ε CDBatch)) :
    ∀ (good : List CDBatch) (i : ℕ) (M : CDMeters),
      CDloopE cfg e nb pf w (good.map Except.ok ++ Except.error err :: rest) i M =
        Except.error err := by
  intro good
  induction good with
  | nil => intro i M; rfl
  | cons b g ih =>
    intro i M
    simp only [List.map_cons, List.cons_append, CDloopE, CDprocessBatch_fst,
      List.append_eq]
    rw [ih (i + 1) (CDmetersStep M b)]

/-- On all-successful collaborators the fallible fgnet loop refines the
plain loop. -/
lemma FGloopE_ok {ε : Type} (cfg : FGConfig) (e nb pf : ℕ) (w : Bool) :
    ∀ (l : List FGBatch) (i : ℕ) (M : FGMeters),
      FGloopE (ε := ε) cfg e nb pf w (l.map Except.ok) i M =
        Except.ok (FGloop cfg e nb pf w l i M) := by
  intro l
  induction l with
  | nil => intro i M; rfl
  | cons b rest ih =>
    intro i M
    simp only [List.map_cons, FGloopE, FGprocessBatch_fst]
    rw [ih (i + 1) (FGmetersStep M b)]
    rfl

/-- The first exception raised while processing a fgnet batch aborts the
loop and is returned unchanged. -/
lemma FGloopE_error {ε : Type} (cfg : FGConfig) (e nb pf : ℕ) (w : Bool)
    (err : ε) (rest : List (Except ε FGBatch)) :
    ∀ (good : List FGBatch) (i : ℕ) (M : FGMeters),
      FGloopE cfg e nb pf w (good.map Except.ok ++ Except.error err :: rest) i M =
        Except.error err := by
  intro good
  induction good with
  | nil => intro i M; rfl
  | cons b g ih =>
    intro i M
    simp only [List.map_cons, List.cons_append, FGloopE, FGprocessBatch_fst,
      List.append_eq]
    rw [ih (i + 1) (FGmetersStep M b)]

/-! ## Whole-call lemmas -/

lemma CDtrain_snd (cfg : CDConfig) (e me : ℕ) (l : List CDBatch) (fb : ℕ)
    (ol : Option (List String)) (pf : ℕ) (w s : Bool) :
    (CDtrain cfg e me l fb ol pf w s).2 =
      (match openDecision e fb ol with
       | some ls => CDEvent.openSpecified ls
       | none => CDEvent.openAll)
        :: (CDloop cfg e l.length pf w l 0 CDMeters.init).2
        ++ (if s then [CDEvent.schedStep] else []) := rfl

lemma CDtrain_fst (cfg : CDConfig) (e me : ℕ) (l : List CDBatch) (fb : ℕ)
    (ol : Option (List String)) (pf : ℕ) (w s : Bool) :
    (CDtrain cfg e me l fb ol pf w s).1 =
      (CDloop cfg e l.length pf w l 0 CDMeters.init).1 := rfl

lemma FGtrain_snd (cfg : FGConfig) (e me : ℕ) (l : List FGBatch) (fb : ℕ)
    (ol : Option (List String)) (pf : ℕ) (w s : Bool) :
    (FGtrain cfg e me l fb ol pf w s).2 =
      (match openDecision e fb ol with
       | some ls => FGEvent.openSpecified ls
       | none => FGEvent.openAll)
        :: (FGloop cfg e l.length pf w l 0 FGMeters.init).2
        ++ (if s then [FGEvent.schedStep] else []) := rfl

lemma FGtrain_fst (cfg : FGConfig) (e me : ℕ) (l : List FGBatch) (fb : ℕ)
    (ol : Option (List String)) (pf : ℕ) (w s : Bool) :
    (FGtrain cfg e me l fb ol pf w s).1 =
      (FGloop cfg e l.length pf w l 0 FGMeters.init).1 := rfl

/-- The backpropagated scalars of a whole cluster-dependency `train` call. -/
lemma CDtrain_backwardVals (cfg : CDConfig) (e me : ℕ) (l : List CDBatch)
    (fb : ℕ) (ol : Option (List String)) (pf : ℕ) (w s : Bool) :
    CDbackwardVals (CDtrain cfg e me l fb ol pf w s).2 = l.map (CDloss cfg) := by
  rw [CDtrain_snd]
  have hloop := CDloop_backwardVals cfg e l.length pf w l 0 CDMeters.init
  simp only [CDbackwardVals] at hloop ⊢
  cases openDecision e fb ol <;> cases s <;>
    simp [List.filterMap_cons, List.filterMap_append, hloop]

/-- The backpropagated scalars of a whole fgnet `train` call. -/
lemma FGtrain_backwardVals (cfg : FGConfig) (e me : ℕ) (l : List FGBatch)
    (fb : ℕ) (ol : Option (List String)) (pf : ℕ) (w s : Bool) :
    FGbackwardVals (FGtrain cfg e me l fb ol pf w s).2 = l.map (FGloss cfg) := by
  rw [FGtrain_snd]
  have hloop := FGloop_backwardVals cfg e l.length pf w l 0 FGMeters.init
  simp only [FGbackwardVals] at hloop ⊢
  cases openDecision e fb ol <;> cases s <;>
    simp [List.filterMap_cons, List.filterMap_append, hloop]

/-- The forward flags of a whole cluster-dependency `train` call. -/
lemma CDtrain_forwardFlags (cfg : CDConfig) (e me : ℕ) (l : List CDBatch)
    (fb : ℕ) (ol : Option (List String)) (pf : ℕ) (w s : Bool) :
    CDforwardFlags (CDtrain cfg e me l fb ol pf w s).2 =
      l.map fun _ => dropTopFlag cfg e := by
  rw [CDtrain_snd]
  have hloop := CDloop_forwardFlags cfg e l.length pf w l 0 CDMeters.init
  simp only [CDforwardFlags] at hloop ⊢
  cases openDecision e fb ol <;> cases s <;>
    simp [List.filterMap_cons, List.filterMap_append, hloop]

/-- The gradient-step events of a whole cluster-dependency `train` call. -/
lemma CDtrain_core (cfg : CDConfig) (e me : ℕ) (l : List CDBatch)
    (fb : ℕ) (ol : Option (List String)) (pf : ℕ) (w s : Bool) :
    (CDtrain cfg e me l fb ol pf w s).2.filter CDisCore =
      (l.map fun b =>
        [CDEvent.zeroGrad, CDEvent.forward (dropTopFlag cfg e),
         CDEvent.backward (CDloss cfg b), CDEvent.optStep]).flatten := by
  rw [CDtrain_snd]
  have hloop := CDloop_core cfg e l.length pf w l 0 CDMeters.init
  cases openDecision e fb ol <;> cases s <;>
    simp [List.filter_cons, List.filter_append, hloop, CDisCore]

/-- The gradient-step events of a whole fgnet `train` call. -/
lemma FGtrain_core (cfg : FGConfig) (e me : ℕ) (l : List FGBatch)
    (fb : ℕ) (ol : Option (List String)) (pf : ℕ) (w s : Bool) :
    (FGtrain cfg e me l fb ol pf w s).2.filter FGisCore =
      (l.map fun b =>
        [FGEvent.zeroGrad, FGEvent.forward,
         FGEvent.backward (FGloss cfg b), FGEvent.optStep]).flatten := by
  rw [FGtrain_snd]
  have hloop := FGloop_core cfg e l.length pf w l 0 FGMeters.init
  cases openDecision e fb ol <;> cases s <;>
    simp [List.filter_cons, List.filter_append, hloop, FGisCore]

/-- The printed batch indices of a whole cluster-dependency `train` call. -/
lemma CDtrain_prints (cfg : CDConfig) (e me : ℕ) (l : List CDBatch)
    (fb : ℕ) (ol : Option (List String)) (pf : ℕ) (w s : Bool) :
    CDprints (CDtrain cfg e me l fb ol pf w s).2 =
      (List.range l.length).filter fun k => (k + 1) % pf == 0 := by
  rw [CDtrain_snd]
  have hloop := CDloop_prints cfg e l.length pf w l 0 CDMeters.init
  rw [← List.range_eq_range'] at hloop
  simp only [CDprints] at hloop ⊢
  cases openDecision e fb ol <;> cases s <;>
    simp [List.filterMap_cons, List.filterMap_append, hloop]

/-- The printed batch indices of a whole fgnet `train` call. -/
lemma FGtrain_prints (cfg : FGConfig) (e me : ℕ) (l : List FGBatch)
    (fb : ℕ) (ol : Option (List String)) (pf : ℕ) (w s : Bool) :
    FGprints (FGtrain cfg e me l fb ol pf w s).2 =
      (List.range l.length).filter fun k => (k + 1) % pf == 0 := by
  rw [FGtrain_snd]
  have hloop := FGloop_prints cfg e l.length pf w l 0 FGMeters.init
  rw [← List.range_eq_range'] at hloop
  simp only [FGprints] at hloop ⊢
  cases openDecision e fb ol <;> cases s <;>
    simp [List.filterMap_cons, List.filterMap_append, hloop]

/-- The writer global steps of a whole cluster-dependency `train` call. -/
lemma CDtrain_nIters (cfg : CDConfig) (e me : ℕ) (l : List CDBatch)
    (fb : ℕ) (ol : Option (List String)) (pf : ℕ) (w s : Bool) :
    CDnIters (CDtrain cfg e me l fb ol pf w s).2 =
      if w then (List.range l.length).map fun k => e * l.length + k else [] := by
  rw [CDtrain_snd]
  have hloop := CDloop_nIters cfg e l.length pf w l 0 CDMeters.init
  rw [← List.range_eq_range'] at hloop
  simp only [CDnIters] at hloop ⊢
  cases openDecision e fb ol <;> cases s <;> cases w <;>
    simp_all [List.filterMap_cons, List.filterMap_append]

/-- The writer global steps of a whole fgnet `train` call. -/
lemma FGtrain_nIters (cfg : FGConfig) (e me : ℕ) (l : List FGBatch)
    (fb : ℕ) (ol : Option (List String)) (pf : ℕ) (w s : Bool) :
    FGnIters (FGtrain cfg e me l fb ol pf w s).2 =
      if w then (List.range l.length).map fun k => e * l.length + k else [] := by
  rw [FGtrain_snd]
  have hloop := FGloop_nIters cfg e l.length pf w l 0 FGMeters.init
  rw [← List.range_eq_range'] at hloop
  simp only [FGnIters] at hloop ⊢
  cases openDecision e fb ol <;> cases s <;> cases w <;>
    simp_all [List.filterMap_cons, List.filterMap_append]

/-- A whole cluster-dependency `train` call performs exactly one optimizer
step per delivered batch. -/
lemma CDtrain_optStep_count (cfg : CDConfig) (e me : ℕ) (l : List CDBatch)
    (fb : ℕ) (ol : Option (List String)) (pf : ℕ) (w s : Bool) :
    (CDtrain cfg e me l fb ol pf w s).2.countP (fun ev => ev == CDEvent.optStep) =
      l.length := by
  rw [CDtrain_snd]
  have hloop := CDloop_optStep_count cfg e l.length pf w l 0 CDMeters.init
  cases openDecision e fb ol <;> cases s <;>
    simp [List.countP_cons, List.countP_append, hloop]

/-- A whole fgnet `train` call performs exactly one optimizer step per
delivered batch. -/
lemma FGtrain_optStep_count (cfg : FGConfig) (e me : ℕ) (l : List FGBatch)
    (fb : ℕ) (ol : Option (List String)) (pf : ℕ) (w s : Bool) :
    (FGtrain cfg e me l fb ol pf w s).2.countP (fun ev => ev == FGEvent.optStep) =
      l.length := by
  rw [FGtrain_snd]
  have hloop := FGloop_optStep_count cfg e l.length pf w l 0 FGMeters.init
  cases openDecision e fb ol <;> cases s <;>
    simp [List.countP_cons, List.countP_append, hloop]

/-- The batch loop never steps the scheduler. -/
lemma CDloop_schedStep_count (cfg : CDConfig) (e nb pf : ℕ) (w : Bool)
    (l : List CDBatch) (i : ℕ) (M : CDMeters) :
    (CDloop cfg e nb pf w l i M).2.countP (fun ev => ev == CDEvent.schedStep) = 0 := by
  rw [List.countP_eq_zero]
  intro ev hev
  have := (CDloop_shape cfg e nb pf w l i M ev hev).2
  simpa [beq_iff_eq] using this

/-- The fgnet batch loop never steps the scheduler. -/
lemma FGloop_schedStep_count (cfg : FGConfig) (e nb pf : ℕ) (w : Bool)
    (l : List FGBatch) (i : ℕ) (M : FGMeters) :
    (FGloop cfg e nb pf w l i M).2.countP (fun ev => ev == FGEvent.schedStep) = 0 := by
  rw [List.countP_eq_zero]
  intro ev hev
  have := (FGloop_shape cfg e nb pf w l i M ev hev).2.1
  simpa [beq_iff_eq] using this

/-- A whole cluster-dependency `train` call steps the scheduler once when it
is present and never otherwise. -/
lemma CDtrain_schedStep_count (cfg : CDConfig) (e me : ℕ) (l : List CDBatch)
    (fb : ℕ) (ol : Option (List String)) (pf : ℕ) (w s : Bool) :
    (CDtrain cfg e me l fb ol pf w s).2.countP (fun ev => ev == CDEvent.schedStep) =
      if s then 1 else 0 := by
  rw [CDtrain_snd]
  have hloop := CDloop_schedStep_count cfg e l.length pf w l 0 CDMeters.init
  cases openDecision e fb ol <;> cases s <;>
    simp [List.countP_cons, List.countP_append, hloop]

/-- A whole fgnet `train` call steps the scheduler once when it is present
and never otherwise. -/
lemma FGtrain_schedStep_count (cfg : FGConfig) (e me : ℕ) (l : List FGBatch)
    (fb : ℕ) (ol : Option (List String)) (pf : ℕ) (w s : Bool) :
    (FGtrain cfg e me l fb ol pf w s).2.countP (fun ev => ev == FGEvent.schedStep) =
      if s then 1 else 0 := by
  rw [FGtrain_snd]
  have hloop := FGloop_schedStep_count cfg e l.length pf w l 0 FGMeters.init
  cases openDecision e fb ol <;> cases s <;>
    simp [List.countP_cons, List.countP_append, hloop]

/-- With a scheduler present, the scheduler step is the very last event of
the call. -/
lemma CDtrain_getLast (cfg : CDConfig) (e me : ℕ) (l : List CDBatch)
    (fb : ℕ) (ol : Option (List String)) (pf : ℕ) (w : Bool) :
    (CDtrain cfg e me l fb ol pf w true).2.getLast? = some CDEvent.schedStep := by
  rw [CDtrain_snd]
  simp only [if_true]
  rw [show
    (match openDecision e fb ol with
     | some ls => CDEvent.openSpecified ls
     | none => CDEvent.openAll)
      :: (CDloop cfg e l.length pf w l 0 CDMeters.init).2 ++ [CDEvent.schedStep] =
    ((match openDecision e fb ol with
      | some ls => CDEvent.openSpecified ls
      | none => CDEvent.openAll)
       :: (CDloop cfg e l.length pf w l 0 CDMeters.init).2) ++ [CDEvent.schedStep]
    from rfl]
  exact List.getLast?_concat _

/-- With a scheduler present, the scheduler step is the very last event of
the fgnet call. -/
lemma FGtrain_getLast (cfg : FGConfig) (e me : ℕ) (l : List FGBatch)
    (fb : ℕ) (ol : Option (List String)) (pf : ℕ) (w : Bool) :
    (FGtrain cfg e me l fb ol pf w true).2.getLast? = some FGEvent.schedStep := by
  rw [FGtrain_snd]
  simp only [if_true]
  rw [show
    (match openDecision e fb ol with
     | some ls => FGEvent.openSpecified ls
     | none => FGEvent.openAll)
      :: (FGloop cfg e l.length pf w l 0 FGMeters.init).2 ++ [FGEvent.schedStep] =
    ((match openDecision e fb ol with
      | some ls => FGEvent.openSpecified ls
      | none => FGEvent.openAll)
       :: (FGloop cfg e l.length pf w l 0 FGMeters.init).2) ++ [FGEvent.schedStep]
    from rfl]
  exact List.getLast?_concat _

/-! ## The claims -/

/-- C1: For every batch, the scalar that each engine backpropagates equals
the weighted sum of its individually computed loss terms: in the
cluster-dependency engine the ten-term sum
`weight_t*loss_t + weight_x*loss_x + weight_db_t*loss_db_t +
weight_db_x*loss_db_x + weight_b_db_t*loss_b_db_t +
weight_b_db_x*loss_b_db_x + weight_c*loss_c + weight_db_c*loss_db_c +
weight_b_db_c*loss_b_db_c + weight_dep*loss_dep`, and in the fgnet engine
the four-term sum `weight_t*loss_t + weight_x*loss_x + weight_n*loss_n +
weight_x_parts*loss_x_parts`, using the weights stored at construction. -/
theorem spec_C1_loss_weighted_sum
    (cfg : CDConfig) (fcfg : FGConfig) (e me e' me' : ℕ)
    (l : List CDBatch) (l' : List FGBatch) (fb fb' : ℕ)
    (ol ol' : Option (List String)) (pf pf' : ℕ) (w s w' s' : Bool) :
    CDbackwardVals (CDtrain cfg e me l fb ol pf w s).2 =
        l.map (fun b =>
          cfg.weight_t * b.loss_t + cfg.weight_x * b.loss_x
            + cfg.weight_db_t * b.loss_db_t + cfg.weight_db_x * b.loss_db_x
            + cfg.weight_b_db_t * b.loss_b_db_t + cfg.weight_b_db_x * b.loss_b_db_x
            + cfg.weight_c * b.loss_c + cfg.weight_db_c * b.loss_db_c
            + cfg.weight_b_db_c * b.loss_b_db_c + cfg.weight_dep * b.loss_dep) ∧
      FGbackwardVals (FGtrain fcfg e' me' l' fb' ol' pf' w' s').2 =
        l'.map (fun b =>
          fcfg.weight_t * b.loss_t + fcfg.weight_x * b.loss_x
            + fcfg.weight_n * b.loss_n + fcfg.weight_x_parts * b.loss_x_parts) :=
  ⟨CDtrain_backwardVals cfg e me l fb ol pf w s,
   FGtrain_backwardVals fcfg e' me' l' fb' ol' pf' w' s'⟩

/-- C2: The `drop_top` flag passed to every model forward call of the
cluster-dependency engine's `train(epoch, ...)` is
`top_drop_epoch ≠ -1 ∧ epoch+1 ≥ top_drop_epoch`, and with the default
`top_drop_epoch = -1` it is `false` for every epoch. -/
theorem spec_C2_drop_top_flag (cfg : CDConfig) (e me : ℕ) (l : List CDBatch)
    (fb : ℕ) (ol : Option (List String)) (pf : ℕ) (w s : Bool) :
    CDforwardFlags (CDtrain cfg e me l fb ol pf w s).2 =
        (l.map fun _ => dropTopFlag cfg e) ∧
      (dropTopFlag cfg e = true ↔
        cfg.top_drop_epoch ≠ -1 ∧ cfg.top_drop_epoch ≤ (e : ℤ) + 1) ∧
      (cfg.top_drop_epoch = -1 → dropTopFlag cfg e = false) := by
  refine ⟨CDtrain_forwardFlags cfg e me l fb ol pf w s, ?_, ?_⟩
  · simp [dropTopFlag]
  · intro h
    simp [dropTopFlag, h]

/-- C2 witness: with the constructor-default `top_drop_epoch = -1` the flag
is disabled, e.g. at epoch `5`. -/
theorem spec_C2_drop_top_flag_witness :
    dropTopFlag sampleCDConfig 5 = false :=
  (spec_C2_drop_top_flag sampleCDConfig 5 0 [] 0 none 10 false false).2.2 rfl

/-- C3: In both engines, a `train` call opens only the specified layers iff
`epoch+1 ≤ fixbase_epoch` and `open_layers` is not `None`, otherwise opens
all layers; the decision is the first event of the call and occurs nowhere
else in the trace. -/
theorem spec_C3_fixbase_open_layers
    (cfg : CDConfig) (fcfg : FGConfig) (e me e' me' : ℕ)
    (l : List CDBatch) (l' : List FGBatch) (fb fb' : ℕ)
    (ol ol' : Option (List String)) (pf pf' : ℕ) (w s w' s' : Bool) :
    (∃ rest, (CDtrain cfg e me l fb ol pf w s).2 =
        (match openDecision e fb ol with
         | some ls => CDEvent.openSpecified ls
         | none => CDEvent.openAll) :: rest ∧
        ∀ ev ∈ rest, CDisOpen ev = false) ∧
      (∃ rest', (FGtrain fcfg e' me' l' fb' ol' pf' w' s').2 =
        (match openDecision e' fb' ol' with
         | some ls => FGEvent.openSpecified ls
         | none => FGEvent.openAll) :: rest' ∧
        ∀ ev ∈ rest', FGisOpen ev = false) ∧
      (∀ ls, openDecision e fb ol = some ls ↔ e + 1 ≤ fb ∧ ol = some ls) ∧
      (openDecision e fb ol = none ↔ ¬(e + 1 ≤ fb ∧ ol ≠ none)) := by
  refine ⟨⟨_, CDtrain_snd cfg e me l fb ol pf w s, ?_⟩,
    ⟨_, FGtrain_snd fcfg e' me' l' fb' ol' pf' w' s', ?_⟩, ?_, ?_⟩
  · intro ev hev
    rcases List.mem_append.mp hev with h | h
    · exact (CDloop_shape cfg e l.length pf w l 0 CDMeters.init ev h).1
    · rw [mem_ite_singleton h]; rfl
  · intro ev hev
    rcases List.mem_append.mp hev with h | h
    · exact (FGloop_shape fcfg e' l'.length pf' w' l' 0 FGMeters.init ev h).1
    · rw [mem_ite_singleton h]; rfl
  · intro ls
    unfold openDecision
    split
    · simp_all
    · simp_all
  · unfold openDecision
    split
    · simp_all [Option.ne_none_iff_exists]
      cases ol <;> simp
    · simp_all

/-- C4: The running averages are scoped to a single epoch: every `train`
call starts from freshly constructed meters, its final meter state is the
fold of the per-batch updates over exactly this call's batches, and after
any prefix of `k` batches each meter's average is the weighted average of
the values recorded during those `k` batches alone — it never depends on
batches from earlier `train` calls. -/
theorem spec_C4_meters_epoch_scoped
    (cfg : CDConfig) (fcfg : FGConfig) (e me e' me' : ℕ)
    (l : List CDBatch) (l' : List FGBatch) (fb fb' : ℕ)
    (ol ol' : Option (List String)) (pf pf' : ℕ) (w s w' s' : Bool)
    (k k' : ℕ) :
    (CDtrain cfg e me l fb ol pf w s).1 = CDapplyBatches CDMeters.init l ∧
    (FGtrain fcfg e' me' l' fb' ol' pf' w' s').1 = FGapplyBatches FGMeters.init l' ∧
    ((CDapplyBatches CDMeters.init (l.take k)).losses_t.avg =
      weightedAvg ((l.take k).map fun b => (b.loss_t, b.batchSize))) ∧
    ((CDapplyBatches CDMeters.init (l.take k)).losses_x.avg =
      weightedAvg ((l.take k).map fun b => (b.loss_x, b.batchSize))) ∧
    ((CDapplyBatches CDMeters.init (l.take k)).losses_c.avg =
      weightedAvg ((l.take k).map fun b => (b.loss_c, b.batchSize))) ∧
    ((CDapplyBatches CDMeters.init (l.take k)).losses_db_t.avg =
      weightedAvg ((l.take k).map fun b => (b.loss_db_t, b.batchSize))) ∧
    ((CDapplyBatches CDMeters.init (l.take k)).losses_db_x.avg =
      weightedAvg ((l.take k).map fun b => (b.loss_db_x, b.batchSize))) ∧
    ((CDapplyBatches CDMeters.init (l.take k)).losses_db_c.avg =
      weightedAvg ((l.take k).map fun b => (b.loss_db_c, b.batchSize))) ∧
    ((CDapplyBatches CDMeters.init (l.take k)).losses_b_db_t.avg =
      weightedAvg ((l.take k).map fun b => (b.loss_b_db_t, b.batchSize))) ∧
    ((CDapplyBatches CDMeters.init (l.take k)).losses_b_db_x.avg =
      weightedAvg ((l.take k).map fun b => (b.loss_b_db_x, b.batchSize))) ∧
    ((CDapplyBatches CDMeters.init (l.take k)).losses_b_db_c.avg =
      weightedAvg ((l.take k).map fun b => (b.loss_b_db_c, b.batchSize))) ∧
    ((CDapplyBatches CDMeters.init (l.take k)).losses_dep.avg =
      weightedAvg ((l.take k).map fun b => (b.loss_dep, b.batchSize))) ∧
    ((CDapplyBatches CDMeters.init (l.take k)).accs.avg =
      weightedAvg ((l.take k).map fun b => (b.acc, 1))) ∧
    ((CDapplyBatches CDMeters.init (l.take k)).batch_time.avg =
      weightedAvg ((l.take k).map fun b => (b.batchTime, 1))) ∧
    ((CDapplyBatches CDMeters.init (l.take k)).data_time.avg =
      weightedAvg ((l.take k).map fun b => (b.dataTime, 1))) ∧
    ((FGapplyBatches FGMeters.init (l'.take k')).losses_t.avg =
      weightedAvg ((l'.take k').map fun b => (b.loss_t, b.batchSize))) ∧
    ((FGapplyBatches FGMeters.init (l'.take k')).losses_x.avg =
      weightedAvg ((l'.take k').map fun b => (b.loss_x, b.batchSize))) ∧
    ((FGapplyBatches FGMeters.init (l'.take k')).losses_n.avg =
      weightedAvg ((l'.take k').map fun b => (b.loss_n, b.batchSize))) ∧
    ((FGapplyBatches FGMeters.init (l'.take k')).losses_x_parts.avg =
      weightedAvg ((l'.take k').map fun b => (b.loss_x_parts, b.batchSize))) ∧
    ((FGapplyBatches FGMeters.init (l'.take k')).accs.avg =
      weightedAvg ((l'.take k').map fun b => (b.acc, 1))) ∧
    ((FGapplyBatches FGMeters.init (l'.take k')).batch_time.avg =
      weightedAvg ((l'.take k').map fun b => (b.batchTime, 1))) ∧
    ((FGapplyBatches FGMeters.init (l'.take k')).data_time.avg =
      weightedAvg ((l'.take k').map fun b => (b.dataTime, 1))) := by
  refine ⟨by rw [CDtrain_fst, CDloop_meters],
    by rw [FGtrain_fst, FGloop_meters], ?_⟩
  simp [CDapplyBatches_eq, FGapplyBatches_eq, CDMeters.init, FGMeters.init,
    AverageMeter.init_runUpdates_avg]

/-- C5: Neither engine's `train` catches or transforms any exception: when
the collaborators of some batch raise, the call returns that same error
unchanged (the batches before it having been processed normally), and on
all-successful collaborators the fallible call refines the plain one — there
is no engine-defined error branch. -/
theorem spec_C5_error_propagation {ε : Type}
    (cfg : CDConfig) (fcfg : FGConfig) (e me e' me' : ℕ)
    (fb fb' : ℕ) (ol ol' : Option (List String)) (pf pf' : ℕ) (w s w' s' : Bool)
    (good : List CDBatch) (rest : List (Except ε CDBatch)) (err : ε)
    (good' : List FGBatch) (rest' : List (Except ε FGBatch)) (err' : ε)
    (l : List CDBatch) (l' : List FGBatch) :
    CDtrainE cfg e me (good.map Except.ok ++ Except.error err :: rest) fb ol pf w s
        = Except.error err ∧
    FGtrainE fcfg e' me' (good'.map Except.ok ++ Except.error err' :: rest') fb' ol' pf' w' s'
        = Except.error err' ∧
    CDtrainE (ε := ε) cfg e me (l.map Except.ok) fb ol pf w s
        = Except.ok (CDtrain cfg e me l fb ol pf w s) ∧
    FGtrainE (ε := ε) fcfg e' me' (l'.map Except.ok) fb' ol' pf' w' s'
        = Except.ok (FGtrain fcfg e' me' l' fb' ol' pf' w' s') := by
  refine ⟨?_, ?_, ?_, ?_⟩
  · simp only [CDtrainE]
    rw [CDloopE_error]
  · simp only [FGtrainE]
    rw [FGloopE_error]
  · simp only [CDtrainE, List.length_map]
    rw [CDloopE_ok]
    rfl
  · simp only [FGtrainE, List.length_map]
    rw [FGloopE_ok]
    rfl

/-- C5 witness: a concrete call whose only batch raises returns exactly that
error. -/
theorem spec_C5_error_propagation_witness :
    CDtrainE (ε := ℕ) sampleCDConfig 0 1 [Except.error 7] 0 none 10 false false
      = Except.error 7 :=
  (spec_C5_error_propagation (ε := ℕ) sampleCDConfig sampleFGConfig 0 1 0 1 0 0
    none none 10 10 false false false false [] [] 7 [] [] 7 [] []).1

/-- C6: Each `train` call steps the scheduler exactly once when present (as
the last action, after the batch loop), never when absent, and performs one
optimizer step per delivered batch — so with zero batches the scheduler
still steps once while the optimizer never does. -/
theorem spec_C6_scheduler_step
    (cfg : CDConfig) (fcfg : FGConfig) (e me e' me' : ℕ)
    (l : List CDBatch) (l' : List FGBatch) (fb fb' : ℕ)
    (ol ol' : Option (List String)) (pf pf' : ℕ) (w s w' s' : Bool) :
    ((CDtrain cfg e me l fb ol pf w s).2.countP
        (fun ev => ev == CDEvent.schedStep) = if s then 1 else 0) ∧
    (CDtrain cfg e me l fb ol pf w true).2.getLast? = some CDEvent.schedStep ∧
    ((CDtrain cfg e me l fb ol pf w s).2.countP
        (fun ev => ev == CDEvent.optStep) = l.length) ∧
    ((CDtrain cfg e me ([] : List CDBatch) fb ol pf w true).2.countP
        (fun ev => ev == CDEvent.optStep) = 0) ∧
    ((CDtrain cfg e me ([] : List CDBatch) fb ol pf w true).2.countP
        (fun ev => ev == CDEvent.schedStep) = 1) ∧
    ((FGtrain fcfg e' me' l' fb' ol' pf' w' s').2.countP
        (fun ev => ev == FGEvent.schedStep) = if s' then 1 else 0) ∧
    (FGtrain fcfg e' me' l' fb' ol' pf' w' true).2.getLast? = some FGEvent.schedStep ∧
    ((FGtrain fcfg e' me' l' fb' ol' pf' w' s').2.countP
        (fun ev => ev == FGEvent.optStep) = l'.length) ∧
    ((FGtrain fcfg e' me' ([] : List FGBatch) fb' ol' pf' w' true).2.countP
        (fun ev => ev == FGEvent.optStep) = 0) ∧
    ((FGtrain fcfg e' me' ([] : List FGBatch) fb' ol' pf' w' true).2.countP
        (fun ev => ev == FGEvent.schedStep) = 1) :=
  ⟨CDtrain_schedStep_count cfg e me l fb ol pf w s,
   CDtrain_getLast cfg e me l fb ol pf w,
   CDtrain_optStep_count cfg e me l fb ol pf w s,
   CDtrain_optStep_count cfg e me [] fb ol pf w true,
   by rw [CDtrain_schedStep_count]; rfl,
   FGtrain_schedStep_count fcfg e' me' l' fb' ol' pf' w' s',
   FGtrain_getLast fcfg e' me' l' fb' ol' pf' w',
   FGtrain_optStep_count fcfg e' me' l' fb' ol' pf' w' s',
   FGtrain_optStep_count fcfg e' me' [] fb' ol' pf' w' true,
   by rw [FGtrain_schedStep_count]; rfl⟩

/-- C7: `train` in both engines is a single sequential loop over the
trainloader: projected to gradient-step events, the trace is exactly, for
each delivered batch in delivery order, one `zero_grad`, one model forward,
one backward pass on the combined loss, and one optimizer step — batches are
never reordered, skipped, or interleaved. -/
theorem spec_C7_sequential_gradient_steps
    (cfg : CDConfig) (fcfg : FGConfig) (e me e' me' : ℕ)
    (l : List CDBatch) (l' : List FGBatch) (fb fb' : ℕ)
    (ol ol' : Option (List String)) (pf pf' : ℕ) (w s w' s' : Bool) :
    (CDtrain cfg e me l fb ol pf w s).2.filter CDisCore =
        (l.map fun b =>
          [CDEvent.zeroGrad, CDEvent.forward (dropTopFlag cfg e),
           CDEvent.backward (CDloss cfg b), CDEvent.optStep]).flatten ∧
      (FGtrain fcfg e' me' l' fb' ol' pf' w' s').2.filter FGisCore =
        (l'.map fun b =>
          [FGEvent.zeroGrad, FGEvent.forward,
           FGEvent.backward (FGloss fcfg b), FGEvent.optStep]).flatten :=
  ⟨CDtrain_core cfg e me l fb ol pf w s,
   FGtrain_core fcfg e' me' l' fb' ol' pf' w' s'⟩

/-- C8: The two engines are training-loop variants that differ only in
which loss terms they combine and which model outputs they consume: erasing
those engine-specific payloads (loss values, forward-call signature, logged
scalars and histograms), the per-epoch control flow of the two `train`
methods — fix-base-layer selection, per-batch gradient-step sequence,
periodic printing, writer logging, and final scheduler step — is identical
whenever the two calls receive the same control inputs and the same number
of batches. -/
theorem spec_C8_control_flow_identical
    (cfg : CDConfig) (fcfg : FGConfig) (e me fb : ℕ)
    (ol : Option (List String)) (pf : ℕ) (w s : Bool)
    (l : List CDBatch) (l' : List FGBatch) (h : l.length = l'.length) :
    (CDtrain cfg e me l fb ol pf w s).2.map CDskel =
      (FGtrain fcfg e me l' fb ol pf w s).2.map FGskel := by
  rw [CDtrain_skel, FGtrain_skel, h]

/-- C8 witness: the skeletons coincide on concrete one-batch calls. -/
theorem spec_C8_control_flow_identical_witness :
    [sampleCDBatch].length = [sampleFGBatch].length ∧
      (CDtrain sampleCDConfig 0 1 [sampleCDBatch] 0 none 10 true true).2.map CDskel =
        (FGtrain sampleFGConfig 0 1 [sampleFGBatch] 0 none 10 true true).2.map FGskel :=
  ⟨rfl, spec_C8_control_flow_identical sampleCDConfig sampleFGConfig 0 1 0 none
    10 true true [sampleCDBatch] [sampleFGBatch] rfl⟩

lemma CDprints_mem (tr : List CDEvent) (i : ℕ) :
    i ∈ CDprints tr ↔ CDEvent.printProgress i ∈ tr := by
  simp only [CDprints, List.mem_filterMap]
  constructor
  · rintro ⟨ev, hev, hf⟩
    cases ev <;> simp at hf
    subst hf
    exact hev
  · intro h
    exact ⟨CDEvent.printProgress i, h, rfl⟩

lemma FGprints_mem (tr : List FGEvent) (i : ℕ) :
    i ∈ FGprints tr ↔ FGEvent.printProgress i ∈ tr := by
  simp only [FGprints, List.mem_filterMap]
  constructor
  · rintro ⟨ev, hev, hf⟩
    cases ev <;> simp at hf
    subst hf
    exact hev
  · intro h
    exact ⟨FGEvent.printProgress i, h, rfl⟩

lemma map_add_range_pairwise (c n : ℕ) :
    ((List.range n).map fun k => c + k).Pairwise (· < ·) := by
  refine List.Pairwise.map _ ?_ (List.pairwise_lt_range n)
  intro a b hab
  omega

/-- C9: In both engines the console progress line is printed for batch `i`
iff `(i+1)` is an exact multiple of `print_freq`, while writer logging, when
the writer is present, occurs on every batch with global step
`n_iter = epoch * num_batches + batch_idx`, strictly increasing across the
batches of the epoch.  Stated for positive `print_freq`: at `print_freq = 0`
the Python modulo raises `ZeroDivisionError`, which this embedding does not
model. -/
theorem spec_C9_print_and_writer
    (cfg : CDConfig) (fcfg : FGConfig) (e me e' me' : ℕ)
    (l : List CDBatch) (l' : List FGBatch) (fb fb' : ℕ)
    (ol ol' : Option (List String)) (pf pf' : ℕ) (w s w' s' : Bool)
    (hpf : 0 < pf) (hpf' : 0 < pf') :
    (∀ i, CDEvent.printProgress i ∈ (CDtrain cfg e me l fb ol pf w s).2 ↔
        i < l.length ∧ (i + 1) % pf = 0) ∧
    CDnIters (CDtrain cfg e me l fb ol pf true s).2 =
        ((List.range l.length).map fun k => e * l.length + k) ∧
    (CDnIters (CDtrain cfg e me l fb ol pf true s).2).Pairwise (· < ·) ∧
    (∀ i, FGEvent.printProgress i ∈ (FGtrain fcfg e' me' l' fb' ol' pf' w' s').2 ↔
        i < l'.length ∧ (i + 1) % pf' = 0) ∧
    FGnIters (FGtrain fcfg e' me' l' fb' ol' pf' true s').2 =
        ((List.range l'.length).map fun k => e' * l'.length + k) ∧
    (FGnIters (FGtrain fcfg e' me' l' fb' ol' pf' true s').2).Pairwise (· < ·) := by
  have hcd : CDnIters (CDtrain cfg e me l fb ol pf true s).2 =
      (List.range l.length).map fun k => e * l.length + k := by
    rw [CDtrain_nIters]
    simp
  have hfg : FGnIters (FGtrain fcfg e' me' l' fb' ol' pf' true s').2 =
      (List.range l'.length).map fun k => e' * l'.length + k := by
    rw [FGtrain_nIters]
    simp
  refine ⟨?_, hcd, ?_, ?_, hfg, ?_⟩
  · intro i
    rw [← CDprints_mem, CDtrain_prints]
    simp
  · rw [hcd]
    exact map_add_range_pairwise _ _
  · intro i
    rw [← FGprints_mem, FGtrain_prints]
    simp
  · rw [hfg]
    exact map_add_range_pairwise _ _

/-- C9 witness: with `print_freq = 2` and two batches, batch index `1` is
printed. -/
theorem spec_C9_print_and_writer_witness :
    CDEvent.printProgress 1 ∈
      (CDtrain sampleCDConfig 0 1 [sampleCDBatch, sampleCDBatch] 0 none 2
        true false).2 :=
  ((spec_C9_print_and_writer sampleCDConfig sampleFGConfig 0 1 0 1
      [sampleCDBatch, sampleCDBatch] [sampleFGBatch] 0 0 none none 2 2
      true false true false (by decide) (by decide)).1 1).mpr
    ⟨by decide, by decide⟩

/-- C10: In the fgnet engine's per-batch histogram logging, for each part
the inner index `j` ranges over `min(weights.size(0), 3)` values, so at most
3 histograms are written per part per batch and the indexing
`weights[j, ...]` is in bounds (`j < weights.size(0)`) for every batch size,
including batches smaller than 3. -/
theorem spec_C10_histogram_bounds
    (cfg : FGConfig) (e me : ℕ) (l : List FGBatch) (fb : ℕ)
    (ol : Option (List String)) (pf : ℕ) (w s : Bool)
    (n : ℕ) (sc : List (String × ℚ)) (hs : List HistEntry)
    (hev : FGEvent.writerLog n sc hs ∈ (FGtrain cfg e me l fb ol pf w s).2) :
    (∀ h ∈ hs, h.idx < h.size ∧ h.idx < 3) ∧
      ∀ i, hs.countP (fun h => h.part == i) ≤ 3 := by
  rw [FGtrain_snd] at hev
  rcases List.mem_cons.mp hev with h | h
  · exfalso
    revert h
    cases openDecision e fb ol <;> intro h <;> simp at h
  · rcases List.mem_append.mp h with h | h
    · obtain ⟨-, -, h3⟩ := FGloop_shape cfg e l.length pf w l 0 FGMeters.init _ h
      obtain ⟨b, -, hhs⟩ := h3 n sc hs rfl
      subst hhs
      constructor
      · intro x hx
        have hmem := fgHistos_mem b.part_weights 0 x hx
        exact ⟨hmem.1, hmem.2.1⟩
      · intro i
        exact fgHistos_countP_le b.part_weights 0 i
    · have heq := mem_ite_singleton h
      simp at heq

/-- C10 witness: on a concrete one-batch call with parts of sizes `2` and
`5`, the logged histogram entries for part `1` number at most 3. -/
theorem spec_C10_histogram_bounds_witness :
    (fgHistos 0 sampleFGBatch.part_weights).countP (fun h => h.part == 1) ≤ 3 :=
  (spec_C10_histogram_bounds sampleFGConfig 0 1 [sampleFGBatch] 0 none 10
      true false 0
      (FGscalars (FGmetersStep FGMeters.init sampleFGBatch) sampleFGBatch.lr)
      (fgHistos 0 sampleFGBatch.part_weights)
      (by simp [FGtrain_snd, FGloop_cons, FGloop_nil, FGprocessBatch])).2 1

end TopDropBlock
